import Mathlib

/-!
Verification of the `shards` repository: a client-side database-sharding
wrapper around `database/sql`. We shallowly embed the relevant Go code:

* `SafeMap` (safe_map.go) is modelled as an association list over `String`
  keys; the lock discipline is irrelevant to the sequential claims below.
* The driver (`database/sql`) is modelled by prescribing, for every
  connection touched during one call, the outcome of each primitive
  (`Begin`, `Exec`, `Commit`, `Rollback`, `Open`, `Close`) as an
  `Option ε` value: `none` = the call returns a nil error, `some e` =
  the call fails with error `e`. Each primitive is invoked at most once
  per connection in the code under study, so a single prescribed outcome
  per primitive is a faithful model of one call.
* Go's `error` results are modelled as `Option ε` (nil = `none`);
  multi-errors built by `errors.Join` are modelled as `List ε` where
  `nil` is `[]` and joining concatenates, matching the observable
  content of `errors.Join` (which drops nil arguments and is nil when
  all arguments are nil).

Each embedded function additionally returns a trace of the driver
actions it issued (which connections had `Begin` called, which
transactions were opened, committed, rolled back), so that claims about
"never begun" / "rolled back" are statable.
-/

set_option autoImplicit false

universe u

/-! ## SafeMap (safe_map.go), modelled as an association list -/

/-- `SafeMap.Get`: first binding for the key, if any. -/
def smGet {α : Type u} : List (String × α) → String → Option α
  | [], _ => none
  | (k', v) :: rest, k => if k' = k then some v else smGet rest k

/-- `SafeMap.Set`: upsert, replacing an existing binding in place. -/
def smSet {α : Type u} : List (String × α) → String → α → List (String × α)
  | [], k, v => [(k, v)]
  | (k', v') :: rest, k, v =>
    if k' = k then (k, v) :: rest else (k', v') :: smSet rest k v

/-- `SafeMap.Del`: remove the binding(s) for the key. -/
def smDel {α : Type u} : List (String × α) → String → List (String × α)
  | [], _ => []
  | (k', v') :: rest, k =>
    if k' = k then smDel rest k else (k', v') :: smDel rest k

/-- `SafeMap.Keys`: the registered keys. -/
def smKeys {α : Type u} (m : List (String × α)) : List String :=
  m.map Prod.fst

namespace SqlQ

/-!
## part_000: `SqlQuerier` — the replication commit coordinator

Connections are numbered: `0` is the shard's own connection, `i + 1` is
the connection of replica `i` (0-based position in `shard.replicas`).
-/

/-- Prescribed driver behaviour of one connection during one `Transact`
call: the outcome of each `database/sql` primitive if it is invoked. -/
structure ConnB (ε : Type) where
  beginRes : Option ε
  execRes : Option ε
  commitRes : Option ε
  rollbackRes : Option ε
deriving DecidableEq

/-- Result of one mutate call: the trace of driver actions (by
connection number) and the returned Go error (`[]` = nil). -/
structure MutResult (ε : Type) where
  /-- connections on which `Begin` was invoked, in order -/
  begun : List Nat
  /-- transactions successfully opened (the Go `txs` slice), in order -/
  opened : List Nat
  /-- transactions on which `Commit` was invoked -/
  committed : List Nat
  /-- transactions on which `Rollback` was invoked -/
  rolledBack : List Nat
  /-- the returned error, as a multi-error (`[]` = nil) -/
  err : List ε
deriving DecidableEq

variable {ε : Type}

/-- The first error of a replica step: its `Begin` error, else its
`Exec` error (`none` when the whole step succeeded). -/
def stepErr (c : ConnB ε) : Option ε :=
  match c.beginRes with
  | some e => some e
  | none => c.execRes

/-- The replica loop of `mutateAndReplicateAllSync` (part_000 lines
245-258): begin + exec on each replica in order, stopping at the first
failure. `idx` is the connection number of the first replica in the
list. Returns (connections begun, transactions opened with their
behaviours, first error). -/
def replicaLoop : List (ConnB ε) → Nat → List Nat × List (Nat × ConnB ε) × Option ε
  | [], _ => ([], [], none)
  | c :: rs, idx =>
    match c.beginRes with
    | some e => ([idx], [], some e)
    | none =>
      match c.execRes with
      | some e => ([idx], [(idx, c)], some e)
      | none =>
        (idx :: (replicaLoop rs (idx + 1)).1,
          (idx, c) :: (replicaLoop rs (idx + 1)).2.1,
          (replicaLoop rs (idx + 1)).2.2)

/-- The commit loop: `Commit` every transaction, collecting the commit
errors in order (`finalErr = errors.Join(finalErr, err)`). -/
def commitErrs : List (Nat × ConnB ε) → List ε
  | [] => []
  | t :: ts => t.2.commitRes.toList ++ commitErrs ts

/-- The rollback loop: `Rollback` every transaction, collecting the
rollback errors in order. -/
def rollbackErrs : List (Nat × ConnB ε) → List ε
  | [] => []
  | t :: ts => t.2.rollbackRes.toList ++ rollbackErrs ts

/-- `SqlQuerier.mutateAndDontReplicate` (part_000 lines 209-224):
begin, exec, commit on success / rollback on failure, on the shard
connection (number 0) alone. -/
def mutateAndDontReplicate (c : ConnB ε) : MutResult ε :=
  match c.beginRes with
  | some e => ⟨[0], [], [], [], [e]⟩
  | none =>
    match c.execRes with
    | some e =>
      match c.rollbackRes with
      | some re => ⟨[0], [0], [], [0], [e, re]⟩
      | none => ⟨[0], [0], [], [0], [e]⟩
    | none => ⟨[0], [0], [0], [], c.commitRes.toList⟩

/-- `SqlQuerier.mutateAndReplicateAllSync` (part_000 lines 226-280). -/
def mutateAndReplicateAllSync (shard : ConnB ε) (replicas : List (ConnB ε))
    (traverseReplicas : Bool) : MutResult ε :=
  match shard.beginRes with
  | some e => ⟨[0], [], [], [], [e]⟩
  | none =>
    let shardErr := shard.execRes
    let rl :=
      if shardErr.isNone && traverseReplicas then replicaLoop replicas 1
      else ([], [], none)
    let txs := (0, shard) :: rl.2.1
    if shardErr.isNone && rl.2.2.isNone then
      ⟨0 :: rl.1, txs.map Prod.fst, txs.map Prod.fst, [], commitErrs txs⟩
    else
      ⟨0 :: rl.1, txs.map Prod.fst, [], txs.map Prod.fst,
        shardErr.toList ++ rl.2.2.toList ++ rollbackErrs txs⟩

/-- Statement helper: the shard step and every replica step of one
`ReplicateAll` call succeed (each `Begin` and `Exec` returns nil). -/
def stepsOk (sh : ConnB ε) (replicas : List (ConnB ε)) : Prop :=
  sh.beginRes = none ∧ sh.execRes = none ∧
    ∀ c ∈ replicas, c.beginRes = none ∧ c.execRes = none

/-- Statement helper: every `Commit` of the call returns nil. -/
def commitsOk (sh : ConnB ε) (replicas : List (ConnB ε)) : Prop :=
  sh.commitRes = none ∧ ∀ c ∈ replicas, c.commitRes = none

/-- Statement helper: pair each list element with its position,
starting at `idx`. -/
def idxFrom {α : Type u} : Nat → List α → List (Nat × α)
  | _, [] => []
  | idx, a :: as => (idx, a) :: idxFrom (idx + 1) as

/-- `ReplicationStrategy` values are strings in the source. -/
def ReplicateNone : String := "ReplicateNone"

/-- `ReplicateAll` strategy constant. -/
def ReplicateAll : String := "ReplicateAll"

/-- `ReplicateSome` strategy constant (declared, unimplemented). -/
def ReplicateSome : String := "ReplicateSome"

/-- A registered `sqlQuerierShard`: its own connection behaviour and
those of its replicas, in registration order. -/
structure SqlShardB (ε : Type) where
  db : ConnB ε
  replicas : List (ConnB ε)
deriving DecidableEq

/-- The `SqlQuerier` state relevant to `Transact`. -/
structure SqlQuerier (ε : Type) where
  replicationStrategy : String
  shards : List (String × SqlShardB ε)

/-- `SqlQuerier.Transact` (part_000 lines 191-207). `none` models the
"shard is not registered" early error return (no driver action).
Note the Go switch: `case ReplicateNone:` has an empty body and Go does
not fall through, so that branch performs no driver action and the
function returns nil. -/
def Transact (q : SqlQuerier ε) (shardKey : String) : Option (MutResult ε) :=
  match smGet q.shards shardKey with
  | none => none
  | some shard =>
    if q.replicationStrategy = ReplicateAll then
      some (mutateAndReplicateAllSync shard.db shard.replicas true)
    else if q.replicationStrategy = ReplicateNone then
      some ⟨[], [], [], [], []⟩
    else
      some (mutateAndDontReplicate shard.db)

end SqlQ

namespace Registry

/-!
## part_004: the package-level shard registry with lazy connect

`Shard` carries a `sync.Once`-guarded lazy connection (`db`, `dbErr`,
`dbOnce`). We model the mutable fields explicitly and prescribe the
outcome of `sql.Open` (`openRes`) and of `db.Close()` (`closeRes`).
The package-level `shardsLookupTable` is initialized at load time, so
its nil-check branches in the source are dead; the registry is simply
an association list here.
-/

/-- A `Shard` (part_004 lines 20-33) together with its prescribed
driver behaviour. `onceDone` = the `dbOnce` guard has fired; `dbSet` =
`db != nil`; `dbErr` = the cached connect error. -/
structure Shard (ε : Type) where
  key : String
  openRes : Option ε
  closeRes : Option ε
  onceDone : Bool
  dbSet : Bool
  dbErr : Option ε
deriving DecidableEq

variable {ε : Type}

/-- `NewShard` (part_004 lines 37-43): no connection yet. -/
def NewShard (key : String) (openRes closeRes : Option ε) : Shard ε :=
  ⟨key, openRes, closeRes, false, false, none⟩

/-- `Shard.connect` (part_004 lines 58-64): once-only
`sql.Open`, caching handle and error; returns the cached error.
`sql.Open` yields a nil handle exactly when it errs. -/
def Shard.connect (s : Shard ε) : Shard ε × Option ε :=
  if s.onceDone then (s, s.dbErr)
  else
    match s.openRes with
    | none => ({ s with onceDone := true, dbSet := true, dbErr := none }, none)
    | some e => ({ s with onceDone := true, dbSet := false, dbErr := some e }, some e)

/-- `Shard.close` (part_004 lines 50-56): close the handle if one is
live, else nil. -/
def Shard.close (s : Shard ε) : Option ε :=
  if s.dbSet then s.closeRes else none

/-- `registerShard` (part_004 lines 133-148): close the old entry's
connection first; on close failure return the error without installing
the new entry. -/
def registerShard (reg : List (String × Shard ε)) (shard : Shard ε) :
    List (String × Shard ε) × Option ε :=
  match smGet reg shard.key with
  | some oldShard =>
    match Shard.close oldShard with
    | some e => (reg, some e)
    | none => (smSet reg shard.key shard, none)
  | none => (smSet reg shard.key shard, none)

/-- `closeShard` (part_004 lines 150-167): close the entry's
connection; only on success delete the entry. -/
def closeShard (reg : List (String × Shard ε)) (key : String) :
    List (String × Shard ε) × Option ε :=
  match smGet reg key with
  | none => (reg, none)
  | some shard =>
    match Shard.close shard with
    | some e => (reg, some e)
    | none => (smDel reg key, none)

/-- The loop of `CloseAll` (part_004 lines 88-92) over a key snapshot,
threading the registry and appending each close error. -/
def closeFold (reg : List (String × Shard ε)) :
    List String → List (String × Shard ε) × List ε
  | [] => (reg, [])
  | k :: ks =>
    ((closeFold (closeShard reg k).1 ks).1,
      (closeShard reg k).2.toList ++ (closeFold (closeShard reg k).1 ks).2)

/-- `CloseAll` (part_004 lines 83-95). -/
def CloseAll (reg : List (String × Shard ε)) :
    List (String × Shard ε) × List ε :=
  closeFold reg (smKeys reg)

/-- `DB` (part_004 lines 105-116): nil for an unregistered key, nil on
connect failure, else the shard's handle (modelled by the shard's
key, its unique identifier). The stored shard is mutated through its
pointer by `connect`; `smSet` models that in-place update. -/
def DB (reg : List (String × Shard ε)) (key : String) :
    List (String × Shard ε) × Option String :=
  match smGet reg key with
  | none => (reg, none)
  | some shard =>
    let c := Shard.connect shard
    let reg' := smSet reg key c.1
    match c.2 with
    | some _ => (reg', none)
    | none => (reg', some c.1.key)

end Registry

namespace ShardsGo

/-!
## shards.go: the eager-connect variant of the registry

`registerShard` (shards.go lines 179-204) closes the old entry's live
connection first, then opens the new connection, and installs the new
entry only if both succeeded. Every installed entry has a live handle
(`_db` set at registration), so closing the old entry consults its
prescribed `closeRes` directly.
-/

/-- A shards.go `Shard` with prescribed driver behaviour. -/
structure Shard (ε : Type) where
  key : String
  openRes : Option ε
  closeRes : Option ε
  dbSet : Bool
deriving DecidableEq

variable {ε : Type}

/-- `connectToDatabase` (shards.go lines 206-213). -/
def connectToDatabase (shard : Shard ε) : Option ε :=
  shard.openRes

/-- `registerShard` (shards.go lines 179-204). -/
def registerShard (reg : List (String × Shard ε)) (shard : Shard ε) :
    List (String × Shard ε) × Option ε :=
  match smGet reg shard.key with
  | some oldShard =>
    match oldShard.closeRes with
    | some e => (reg, some e)
    | none =>
      match connectToDatabase shard with
      | some e => (reg, some e)
      | none => (smSet reg shard.key { shard with dbSet := true }, none)
  | none =>
    match connectToDatabase shard with
    | some e => (reg, some e)
    | none => (smSet reg shard.key { shard with dbSet := true }, none)

end ShardsGo

/-!
## querier.go and its part_002 draft: the multi-shard querier

Errors are modelled as a concrete inductive so that `errors.Is(err,
sql.ErrTxDone)`, `errors.Join`, and the two flavours of
`fmt.Errorf` wrapping (`%s` produces a flat message with no `Unwrap`;
`%w` wraps) are all representable.
-/

/-- A querier-level Go error value. -/
inductive QErr where
  /-- `ErrFailedToOpenDB` -/
  | failedToOpenDB
  /-- `sql.ErrTxDone` -/
  | txDone
  /-- any other driver/caller error, identified by a number -/
  | base (n : Nat)
  /-- `fmt.Errorf("failed on shard [%s] with error [%s]", key, err)`:
  a flat message naming the key, with no `Unwrap` -/
  | wrapS (key : String) (e : QErr)
  /-- `fmt.Errorf("failed on shard %s with error %w", key, err)`:
  wraps `e` -/
  | wrapW (key : String) (e : QErr)
  /-- `errors.Join` of two non-nil errors -/
  | joined (a b : QErr)
deriving DecidableEq

/-- `errors.Is(e, sql.ErrTxDone)`: true on the target and through
`Join`/`%w` unwrap chains; `%s` formatting breaks the chain. -/
def QErr.isTxDone : QErr → Bool
  | .txDone => true
  | .joined a b => a.isTxDone || b.isTxDone
  | .wrapW _ e => e.isTxDone
  | _ => false

/-- `isErrTxDone` (querier.go lines 124-130, part_002 131-137):
nil is not ErrTxDone. -/
def isErrTxDone : Option QErr → Bool
  | none => false
  | some e => e.isTxDone

/-- `errors.Join` on two nullable errors: nil when both are nil, the
non-nil one when only one is, otherwise a join of both. -/
def goJoin : Option QErr → Option QErr → Option QErr
  | none, b => b
  | some a, none => some a
  | some a, some b => some (QErr.joined a b)

namespace Querier

/-- Behaviour of one selected shard during one `Querier.Do` run:
`openTx` is the combined outcome of `openTxForShardKey` (`DB`
resolution plus `Begin`; `none` = a transaction was obtained),
`doCommit`/`doErr` are what the caller's `DoFunc` returns, and
`rollbackRes`/`commitRes` prescribe `tx.Rollback()`/`tx.Commit()`. -/
structure ShardB where
  key : String
  openTx : Option QErr
  doCommit : Bool
  doErr : Option QErr
  rollbackRes : Option QErr
  commitRes : Option QErr
deriving DecidableEq

/-- Trace and result of `doInShard` for one shard. -/
structure ShardRunResult where
  /-- a transaction was opened -/
  txOpened : Bool
  /-- the caller's `DoFunc` was invoked -/
  doCalled : Bool
  /-- `tx.Rollback()` was invoked -/
  rolledBack : Bool
  /-- `tx.Commit()` was invoked -/
  committed : Bool
  /-- the error `doInShard` returned (`none` = nil) -/
  err : Option QErr
deriving DecidableEq

/-- `doInShard` (querier.go lines 100-122). Note: when the unit of
work reports success with commit flag `false`, the function returns
nil without rolling back or committing. -/
def doInShard (s : ShardB) : ShardRunResult :=
  match s.openTx with
  | some e => ⟨false, false, false, false, some e⟩
  | none =>
    match s.doErr with
    | some e =>
      if isErrTxDone s.rollbackRes then ⟨true, true, true, false, some e⟩
      else ⟨true, true, true, false, goJoin (some e) s.rollbackRes⟩
    | none =>
      if s.doCommit then
        ⟨true, true, false, true,
          if isErrTxDone s.commitRes then none else s.commitRes⟩
      else ⟨true, true, false, false, none⟩

/-- The loop of `doSequential` (querier.go lines 77-90), threading the
accumulated joined error; returns the per-shard results actually
attempted (its trace) and the returned error. With fail-fast the first
shard error is returned immediately, unwrapped; otherwise each error is
wrapped with its shard key (`%s` formatting) and joined. -/
def doSeqAux (failFast : Bool) (acc : Option QErr) :
    List ShardB → List (String × ShardRunResult) × Option QErr
  | [] => ([], acc)
  | s :: rest =>
    let r := doInShard s
    match r.err with
    | some ie =>
      if failFast then ([(s.key, r)], some ie)
      else
        let res := doSeqAux failFast (goJoin acc (some (QErr.wrapS s.key ie))) rest
        ((s.key, r) :: res.1, res.2)
    | none =>
      let res := doSeqAux failFast acc rest
      ((s.key, r) :: res.1, res.2)

/-- `doSequential` (querier.go lines 77-90). -/
def doSequential (failFast : Bool) (shards : List ShardB) :
    List (String × ShardRunResult) × Option QErr :=
  doSeqAux failFast none shards

/-- `Querier.Do` (querier.go lines 68-74): nil at once on an empty
selection, else the sequential run. -/
def Do (failFast : Bool) (selectedShards : List ShardB) :
    List (String × ShardRunResult) × Option QErr :=
  if selectedShards.isEmpty then ([], none)
  else doSequential failFast selectedShards

end Querier

namespace QuerierV2

/-- `doInShard` (part_002 lines 101-129): identical to the querier.go
version except that a success with commit flag `false` rolls the
transaction back, returning the rollback error unless it is nil or
`sql.ErrTxDone`. -/
def doInShard (s : Querier.ShardB) : Querier.ShardRunResult :=
  match s.openTx with
  | some e => ⟨false, false, false, false, some e⟩
  | none =>
    match s.doErr with
    | some e =>
      if isErrTxDone s.rollbackRes then ⟨true, true, true, false, some e⟩
      else ⟨true, true, true, false, goJoin (some e) s.rollbackRes⟩
    | none =>
      if !s.doCommit then
        ⟨true, true, true, false,
          if isErrTxDone s.rollbackRes then none else s.rollbackRes⟩
      else
        ⟨true, true, false, true,
          if isErrTxDone s.commitRes then none else s.commitRes⟩

end QuerierV2

/-! ## Concrete driver behaviours used to exercise the theorems -/

/-- A connection on which every primitive succeeds. -/
def okConn : SqlQ.ConnB Nat := ⟨none, none, none, none⟩

/-- A connection whose `Exec` fails with error 5. -/
def execFailConn : SqlQ.ConnB Nat := ⟨none, some 5, none, none⟩

/-- A shard with one all-succeeding replica. -/
def shOkOk : SqlQ.SqlShardB Nat := ⟨okConn, [okConn]⟩

/-- A shard whose second replica fails its `Exec`. -/
def shMidFail : SqlQ.SqlShardB Nat := ⟨okConn, [okConn, execFailConn, okConn]⟩

/-- A `ReplicateAll` querier holding `shOkOk` under key "s". -/
def qAll : SqlQ.SqlQuerier Nat := ⟨SqlQ.ReplicateAll, [("s", shOkOk)]⟩

/-- A `ReplicateNone` querier holding `shOkOk` under key "s". -/
def qNone : SqlQ.SqlQuerier Nat := ⟨SqlQ.ReplicateNone, [("s", shOkOk)]⟩

/-- A `ReplicateAll` querier holding `shMidFail` under key "s". -/
def qMidFail : SqlQ.SqlQuerier Nat := ⟨SqlQ.ReplicateAll, [("s", shMidFail)]⟩

/-- A `ReplicateSome` querier holding `shOkOk` under key "s". -/
def qSome : SqlQ.SqlQuerier Nat := ⟨SqlQ.ReplicateSome, [("s", shOkOk)]⟩

/-- A registry shard (part_004 model) with a live connection whose
`Close` fails with error 7. -/
def shardCloseFail : Registry.Shard Nat := ⟨"a", none, some 7, true, true, none⟩

/-- A registry shard (part_004 model) with a live connection whose
`Close` succeeds. -/
def shardCloseOk : Registry.Shard Nat := ⟨"b", none, none, true, true, none⟩

/-- A registry shard (part_004 model), never connected, whose
`sql.Open` fails with error 3. -/
def shardOpenFail : Registry.Shard Nat := ⟨"b", some 3, none, false, false, none⟩

/-- A two-entry registry: "a" fails to close, "b" closes fine. -/
def regTwo : List (String × Registry.Shard Nat) :=
  [("a", shardCloseFail), ("b", shardCloseOk)]

/-- A registry holding only the failing-to-open shard under "b". -/
def regOpenFail : List (String × Registry.Shard Nat) :=
  [("b", shardOpenFail)]

/-- A fresh shard to register over an existing "a" entry. -/
def shardFreshA : Registry.Shard Nat := Registry.NewShard "a" none none

/-- A shards.go registry entry under "a" whose `Close` fails with 7. -/
def gShardCloseFail : ShardsGo.Shard Nat := ⟨"a", none, some 7, true⟩

/-- A fresh shards.go shard for key "a" that opens and closes fine. -/
def gShardFreshA : ShardsGo.Shard Nat := ⟨"a", none, none, false⟩

/-- A shards.go registry with the failing-to-close "a" entry. -/
def gRegOne : List (String × ShardsGo.Shard Nat) := [("a", gShardCloseFail)]

/-- A querier shard behaviour that succeeds and asks to commit. -/
def qsOk (key : String) : Querier.ShardB := ⟨key, none, true, none, none, none⟩

/-- A querier shard behaviour whose unit of work fails with error 9. -/
def qsErr (key : String) : Querier.ShardB :=
  ⟨key, none, true, some (QErr.base 9), none, none⟩

/-- A querier shard behaviour whose unit of work succeeds with commit
flag `false` (and whose rollback would succeed if invoked). -/
def qsNoCommit : Querier.ShardB := ⟨"a", none, false, none, none, none⟩

/-! # Helper lemmas -/

namespace SqlQ

variable {ε : Type}

theorem replicaLoop_err_none_iff (rs : List (ConnB ε)) (idx : Nat) :
    (replicaLoop rs idx).2.2 = none ↔
      ∀ c ∈ rs, c.beginRes = none ∧ c.execRes = none := by
  induction rs generalizing idx with
  | nil => simp [replicaLoop]
  | cons c rs ih =>
    cases hb : c.beginRes with
    | some e => simp [replicaLoop, hb]
    | none =>
      cases hx : c.execRes with
      | some e => simp [replicaLoop, hb, hx]
      | none => simp [replicaLoop, hb, hx, ih]

theorem replicaLoop_ok_map (rs : List (ConnB ε)) (idx : Nat)
    (h : ∀ c ∈ rs, c.beginRes = none ∧ c.execRes = none) :
    (replicaLoop rs idx).2.1.map Prod.snd = rs := by
  induction rs generalizing idx with
  | nil => simp [replicaLoop]
  | cons c rs ih =>
    obtain ⟨hb, hx⟩ := h c (List.mem_cons_self c rs)
    simp [replicaLoop, hb, hx,
      ih _ (fun x hx' => h x (List.mem_cons_of_mem _ hx'))]

theorem commitErrs_eq_nil_iff (ts : List (Nat × ConnB ε)) :
    commitErrs ts = [] ↔ ∀ t ∈ ts, t.2.commitRes = none := by
  induction ts with
  | nil => simp [commitErrs]
  | cons t ts ih =>
    cases hc : t.2.commitRes with
    | some e => simp [commitErrs, hc]
    | none => simp [commitErrs, hc, ih]

/-- Full case analysis of `mutateAndReplicateAllSync` as called by
`Transact` under strategy `All`: commit fan-out exactly when the shard
step and every replica step succeeded, rollback fan-out otherwise, and
a nil return exactly when every execution and every commit succeeded. -/
theorem mutateAll_commit_or_rollback (sh : ConnB ε) (rs : List (ConnB ε)) :
    (stepsOk sh rs →
      (mutateAndReplicateAllSync sh rs true).committed =
        (mutateAndReplicateAllSync sh rs true).opened ∧
      (mutateAndReplicateAllSync sh rs true).rolledBack = []) ∧
    (¬ stepsOk sh rs →
      (mutateAndReplicateAllSync sh rs true).rolledBack =
        (mutateAndReplicateAllSync sh rs true).opened ∧
      (mutateAndReplicateAllSync sh rs true).committed = []) ∧
    ((mutateAndReplicateAllSync sh rs true).err = [] ↔
      stepsOk sh rs ∧ commitsOk sh rs) := by
  cases hb : sh.beginRes with
  | some e =>
    have hns : ¬ stepsOk sh rs := by simp [stepsOk, hb]
    refine ⟨fun h => absurd h hns, fun _ => ?_, ?_⟩
    · simp [mutateAndReplicateAllSync, hb]
    · simp [mutateAndReplicateAllSync, hb, stepsOk]
  | none =>
    cases hx : sh.execRes with
    | some e =>
      have hns : ¬ stepsOk sh rs := by simp [stepsOk, hb, hx]
      refine ⟨fun h => absurd h hns, fun _ => ?_, ?_⟩
      · simp [mutateAndReplicateAllSync, hb, hx]
      · simp [mutateAndReplicateAllSync, hb, hx, stepsOk]
    | none =>
      by_cases hr : ∀ c ∈ rs, c.beginRes = none ∧ c.execRes = none
      · have he : (replicaLoop rs 1).2.2 = none :=
          (replicaLoop_err_none_iff rs 1).mpr hr
        have hmap := replicaLoop_ok_map rs 1 hr
        have hok : stepsOk sh rs := ⟨hb, hx, hr⟩
        refine ⟨fun _ => ?_, fun h => absurd hok h, ?_⟩
        · simp [mutateAndReplicateAllSync, hb, hx, he]
        · have herr : (mutateAndReplicateAllSync sh rs true).err =
              commitErrs ((0, sh) :: (replicaLoop rs 1).2.1) := by
            simp [mutateAndReplicateAllSync, hb, hx, he]
          rw [herr, commitErrs_eq_nil_iff]
          constructor
          · intro h
            refine ⟨hok, h (0, sh) (List.mem_cons_self _ _), ?_⟩
            intro c hc
            rw [← hmap] at hc
            obtain ⟨t, ht, rfl⟩ := List.mem_map.mp hc
            exact h t (List.mem_cons_of_mem _ ht)
          · rintro ⟨-, hshc, hrepc⟩ t ht
            rcases List.mem_cons.mp ht with rfl | ht'
            · exact hshc
            · exact hrepc t.2 (hmap ▸ List.mem_map_of_mem Prod.snd ht')
      · have he : (replicaLoop rs 1).2.2 ≠ none := fun h =>
          hr ((replicaLoop_err_none_iff rs 1).mp h)
        obtain ⟨e', he'⟩ := Option.ne_none_iff_exists'.mp he
        have hns : ¬ stepsOk sh rs := fun h => hr h.2.2
        refine ⟨fun h => absurd h hns, fun _ => ?_, ?_⟩
        · simp [mutateAndReplicateAllSync, hb, hx, he']
        · simp [mutateAndReplicateAllSync, hb, hx, he', stepsOk, hr]

end SqlQ

/-! # Claim theorems -/

/-- Claim C1: for every `Transact` call with strategy `All` on a
registered shard with any number of replicas, every transaction opened
during the call is committed when the shard step and every attempted
replica step succeeded, otherwise every transaction opened so far is
rolled back; and the call returns nil exactly when all executions and
all commits succeed. -/
theorem transact_all_atomic {ε : Type} (q : SqlQ.SqlQuerier ε) (key : String)
    (sh : SqlQ.SqlShardB ε)
    (hs : q.replicationStrategy = SqlQ.ReplicateAll)
    (hl : smGet q.shards key = some sh) :
    SqlQ.Transact q key =
      some (SqlQ.mutateAndReplicateAllSync sh.db sh.replicas true) ∧
    (SqlQ.stepsOk sh.db sh.replicas →
      (SqlQ.mutateAndReplicateAllSync sh.db sh.replicas true).committed =
        (SqlQ.mutateAndReplicateAllSync sh.db sh.replicas true).opened ∧
      (SqlQ.mutateAndReplicateAllSync sh.db sh.replicas true).rolledBack = []) ∧
    (¬ SqlQ.stepsOk sh.db sh.replicas →
      (SqlQ.mutateAndReplicateAllSync sh.db sh.replicas true).rolledBack =
        (SqlQ.mutateAndReplicateAllSync sh.db sh.replicas true).opened ∧
      (SqlQ.mutateAndReplicateAllSync sh.db sh.replicas true).committed = []) ∧
    ((SqlQ.mutateAndReplicateAllSync sh.db sh.replicas true).err = [] ↔
      SqlQ.stepsOk sh.db sh.replicas ∧ SqlQ.commitsOk sh.db sh.replicas) := by
  have h := SqlQ.mutateAll_commit_or_rollback sh.db sh.replicas
  refine ⟨?_, h.1, h.2.1, h.2.2⟩
  simp [SqlQ.Transact, hl, hs]

/-- Witness for C1: a concrete `ReplicateAll` querier whose shard and
single replica fully succeed commits everything and returns nil. -/
theorem transact_all_atomic_witness :
    SqlQ.Transact qAll "s" =
      some (SqlQ.mutateAndReplicateAllSync shOkOk.db shOkOk.replicas true) ∧
    (SqlQ.mutateAndReplicateAllSync shOkOk.db shOkOk.replicas true).err = [] := by
  have h := transact_all_atomic qAll "s" shOkOk (by rfl) (by decide)
  exact ⟨h.1, h.2.2.2.mpr (by constructor <;> simp [SqlQ.stepsOk, SqlQ.commitsOk, shOkOk, okConn])⟩

/-- Claim C2 (code bug): with strategy `ReplicateNone`, `Transact` on a
registered shard returns nil without any driver interaction — the
`case ReplicateNone:` branch of the switch is empty and Go does not
fall through, so no transaction is begun and the statement is never
executed, contradicting the documented behaviour ("Executes a query
against a shard") and the `ReplicateNone` doc (only replication is
disabled). Evaluated here at a concrete registered shard whose every
primitive would succeed: the trace is empty and the error nil. -/
theorem transact_none_noop :
    SqlQ.Transact qNone "s" = some ⟨[], [], [], [], []⟩ := by decide

/-- Claim C10: any strategy value other than `ReplicateAll` and
`ReplicateNone` — `ReplicateSome` in particular — falls to the switch
default, executing the statement against the shard connection only,
in its own begin/exec/commit-or-rollback transaction, touching no
replica connection (every traced action is on connection 0). -/
theorem transact_default_no_replication {ε : Type} (q : SqlQ.SqlQuerier ε)
    (key : String) (sh : SqlQ.SqlShardB ε)
    (h1 : q.replicationStrategy ≠ SqlQ.ReplicateAll)
    (h2 : q.replicationStrategy ≠ SqlQ.ReplicateNone)
    (hl : smGet q.shards key = some sh) :
    SqlQ.Transact q key = some (SqlQ.mutateAndDontReplicate sh.db) ∧
    (SqlQ.mutateAndDontReplicate sh.db).begun = [0] ∧
    (sh.db.beginRes = none → sh.db.execRes = none →
      (SqlQ.mutateAndDontReplicate sh.db).committed = [0] ∧
      (SqlQ.mutateAndDontReplicate sh.db).rolledBack = []) ∧
    (∀ e, sh.db.beginRes = none → sh.db.execRes = some e →
      (SqlQ.mutateAndDontReplicate sh.db).rolledBack = [0] ∧
      (SqlQ.mutateAndDontReplicate sh.db).committed = []) ∧
    (∀ i ∈ (SqlQ.mutateAndDontReplicate sh.db).begun ++
        (SqlQ.mutateAndDontReplicate sh.db).opened ++
        (SqlQ.mutateAndDontReplicate sh.db).committed ++
        (SqlQ.mutateAndDontReplicate sh.db).rolledBack, i = 0) := by
  refine ⟨by simp [SqlQ.Transact, hl, h1, h2], ?_, ?_, ?_, ?_⟩
  · cases hb : sh.db.beginRes with
    | some e => simp [SqlQ.mutateAndDontReplicate, hb]
    | none =>
      cases hx : sh.db.execRes with
      | some e =>
        cases hr : sh.db.rollbackRes <;>
          simp [SqlQ.mutateAndDontReplicate, hb, hx, hr]
      | none => simp [SqlQ.mutateAndDontReplicate, hb, hx]
  · intro hb hx
    simp [SqlQ.mutateAndDontReplicate, hb, hx]
  · intro e hb hx
    cases hr : sh.db.rollbackRes <;>
      simp [SqlQ.mutateAndDontReplicate, hb, hx, hr]
  · intro i hi
    cases hb : sh.db.beginRes with
    | some e => simp [SqlQ.mutateAndDontReplicate, hb] at hi; omega
    | none =>
      cases hx : sh.db.execRes with
      | some e =>
        cases hr : sh.db.rollbackRes <;>
          · simp [SqlQ.mutateAndDontReplicate, hb, hx, hr] at hi; omega
      | none => simp [SqlQ.mutateAndDontReplicate, hb, hx] at hi; omega

/-- Witness for C10: a concrete `ReplicateSome` querier executes on
the shard connection alone and commits. -/
theorem transact_default_no_replication_witness :
    SqlQ.Transact qSome "s" = some (SqlQ.mutateAndDontReplicate shOkOk.db) ∧
    (SqlQ.mutateAndDontReplicate shOkOk.db).committed = [0] := by
  have h := transact_default_no_replication qSome "s" shOkOk
    (by decide) (by decide) (by decide)
  exact ⟨h.1, (h.2.2.1 (by rfl) (by rfl)).1⟩

namespace SqlQ

variable {ε : Type}

theorem idxFrom_map_fst {α : Type u} (idx : Nat) (l : List α) :
    (idxFrom idx l).map Prod.fst = List.range' idx l.length := by
  induction l generalizing idx with
  | nil => simp [idxFrom]
  | cons a as ih => simp [idxFrom, List.range'_succ, ih]

theorem replicaLoop_ok_append (good rs : List (ConnB ε)) (idx : Nat)
    (h : ∀ c ∈ good, c.beginRes = none ∧ c.execRes = none) :
    replicaLoop (good ++ rs) idx =
      (List.range' idx good.length ++ (replicaLoop rs (idx + good.length)).1,
       idxFrom idx good ++ (replicaLoop rs (idx + good.length)).2.1,
       (replicaLoop rs (idx + good.length)).2.2) := by
  induction good generalizing idx with
  | nil => simp [idxFrom]
  | cons c cs ih =>
    obtain ⟨hb, hx⟩ := h c (List.mem_cons_self c cs)
    have ih' := ih (idx + 1) (fun x hx' => h x (List.mem_cons_of_mem _ hx'))
    have harith : idx + 1 + cs.length = idx + (cs.length + 1) := by omega
    rw [harith] at ih'
    simp [replicaLoop, hb, hx, ih', idxFrom, List.range'_succ, harith]

theorem replicaLoop_fail_head (bad : ConnB ε) (rest : List (ConnB ε)) (idx : Nat)
    (h : ¬(bad.beginRes = none ∧ bad.execRes = none)) :
    replicaLoop (bad :: rest) idx =
      ([idx], if bad.beginRes.isNone then [(idx, bad)] else [], stepErr bad) := by
  cases hb : bad.beginRes with
  | some e => simp [replicaLoop, stepErr, hb]
  | none =>
    cases hx : bad.execRes with
    | some e => simp [replicaLoop, stepErr, hb, hx]
    | none => exact absurd ⟨hb, hx⟩ h

end SqlQ

/-- Claim C3: for a `Transact` call with strategy `All` where the
shard step succeeds and replica number `good.length` (0-based, i.e.
the one after the `good` prefix) is the first to fail its begin or
exec, exactly the shard transaction and the successfully-begun replica
transactions up to and including the failing one are opened, all of
them are rolled back and none committed, no replica after the failing
one is ever begun, and the returned error combines the failing
replica's error with the rollback errors of the opened transactions. -/
theorem transact_all_first_replica_failure {ε : Type} (q : SqlQ.SqlQuerier ε)
    (key : String) (sh : SqlQ.SqlShardB ε) (good : List (SqlQ.ConnB ε))
    (bad : SqlQ.ConnB ε) (rest : List (SqlQ.ConnB ε))
    (hs : q.replicationStrategy = SqlQ.ReplicateAll)
    (hl : smGet q.shards key = some sh)
    (hb : sh.db.beginRes = none) (hx : sh.db.execRes = none)
    (hrep : sh.replicas = good ++ bad :: rest)
    (hgood : ∀ c ∈ good, c.beginRes = none ∧ c.execRes = none)
    (hbad : ¬(bad.beginRes = none ∧ bad.execRes = none)) :
    SqlQ.Transact q key =
      some (SqlQ.mutateAndReplicateAllSync sh.db sh.replicas true) ∧
    (SqlQ.mutateAndReplicateAllSync sh.db sh.replicas true).opened =
      0 :: (List.range' 1 good.length ++
        (if bad.beginRes.isNone then [good.length + 1] else [])) ∧
    (SqlQ.mutateAndReplicateAllSync sh.db sh.replicas true).committed = [] ∧
    (SqlQ.mutateAndReplicateAllSync sh.db sh.replicas true).rolledBack =
      (SqlQ.mutateAndReplicateAllSync sh.db sh.replicas true).opened ∧
    (SqlQ.mutateAndReplicateAllSync sh.db sh.replicas true).begun =
      0 :: (List.range' 1 good.length ++ [good.length + 1]) ∧
    (∀ j ∈ (SqlQ.mutateAndReplicateAllSync sh.db sh.replicas true).begun,
      j ≤ good.length + 1) ∧
    (SqlQ.mutateAndReplicateAllSync sh.db sh.replicas true).err =
      (SqlQ.stepErr bad).toList ++
        SqlQ.rollbackErrs ((0, sh.db) :: (SqlQ.idxFrom 1 good ++
          (if bad.beginRes.isNone then [(good.length + 1, bad)] else []))) := by
  have hloop : SqlQ.replicaLoop sh.replicas 1 =
      (List.range' 1 good.length ++ [good.length + 1],
       SqlQ.idxFrom 1 good ++
         (if bad.beginRes.isNone then [(good.length + 1, bad)] else []),
       SqlQ.stepErr bad) := by
    rw [hrep, SqlQ.replicaLoop_ok_append good (bad :: rest) 1 hgood,
      SqlQ.replicaLoop_fail_head bad rest _ hbad, Nat.add_comm 1 good.length]
  have heb : ∃ eb, SqlQ.stepErr bad = some eb := by
    cases hbn : bad.beginRes with
    | some e => exact ⟨e, by simp [SqlQ.stepErr, hbn]⟩
    | none =>
      cases hex : bad.execRes with
      | some e => exact ⟨e, by simp [SqlQ.stepErr, hbn, hex]⟩
      | none => exact absurd ⟨hbn, hex⟩ hbad
  obtain ⟨eb, heb⟩ := heb
  have hmut : SqlQ.mutateAndReplicateAllSync sh.db sh.replicas true =
      ⟨0 :: (List.range' 1 good.length ++ [good.length + 1]),
       0 :: (List.range' 1 good.length ++
         (if bad.beginRes.isNone then [good.length + 1] else [])),
       [],
       0 :: (List.range' 1 good.length ++
         (if bad.beginRes.isNone then [good.length + 1] else [])),
       (SqlQ.stepErr bad).toList ++
         SqlQ.rollbackErrs ((0, sh.db) :: (SqlQ.idxFrom 1 good ++
           (if bad.beginRes.isNone then [(good.length + 1, bad)] else [])))⟩ := by
    simp only [SqlQ.mutateAndReplicateAllSync, hb, hx, hloop, heb,
      Option.isNone_none, Option.isNone_some, Bool.true_and, Bool.and_true,
      Bool.and_false, if_true, if_false]
    cases hbn : bad.beginRes with
    | some e =>
      simp [SqlQ.idxFrom_map_fst, List.map_append, heb]
    | none =>
      simp [SqlQ.idxFrom_map_fst, List.map_append, heb]
  refine ⟨by simp [SqlQ.Transact, hl, hs], ?_, ?_, ?_, ?_, ?_, ?_⟩
  · rw [hmut]
  · rw [hmut]
  · rw [hmut]
  · rw [hmut]
  · rw [hmut]
    intro j hj
    simp [List.mem_range'_1] at hj
    rcases hj with rfl | ⟨h1, h2⟩ | rfl <;> omega
  · rw [hmut]

/-- Witness for C3: a concrete `ReplicateAll` querier with three
replicas whose middle replica fails its `Exec`: the shard and the
first two replica transactions are opened and rolled back, the third
replica is never begun, and the error is the exec failure. -/
theorem transact_all_first_replica_failure_witness :
    SqlQ.Transact qMidFail "s" =
      some (SqlQ.mutateAndReplicateAllSync shMidFail.db shMidFail.replicas true) ∧
    (SqlQ.mutateAndReplicateAllSync shMidFail.db shMidFail.replicas true).opened =
      [0, 1, 2] ∧
    (SqlQ.mutateAndReplicateAllSync shMidFail.db shMidFail.replicas true).committed =
      [] ∧
    (SqlQ.mutateAndReplicateAllSync shMidFail.db shMidFail.replicas true).rolledBack =
      [0, 1, 2] ∧
    (SqlQ.mutateAndReplicateAllSync shMidFail.db shMidFail.replicas true).begun =
      [0, 1, 2] ∧
    (SqlQ.mutateAndReplicateAllSync shMidFail.db shMidFail.replicas true).err =
      [5] := by
  have h := transact_all_first_replica_failure qMidFail "s" shMidFail
    [okConn] execFailConn [okConn] (by rfl) (by decide) (by rfl) (by rfl)
    (by rfl) (by decide) (by decide)
  exact ⟨h.1, h.2.1.trans (by decide), h.2.2.1,
    (h.2.2.2.1.trans h.2.1).trans (by decide), h.2.2.2.2.1.trans (by decide),
    h.2.2.2.2.2.2.trans (by decide)⟩

theorem smDel_eq_of_not_mem {α : Type u} (r : List (String × α)) (k : String)
    (h : k ∉ smKeys r) : smDel r k = r := by
  induction r with
  | nil => rfl
  | cons p r ih =>
    simp only [smKeys, List.map_cons, List.mem_cons] at h
    push_neg at h
    cases p with
    | mk a b =>
      simp only [smDel]
      rw [if_neg (fun hh => h.1 hh.symm), ih (by simpa [smKeys] using h.2)]

namespace Registry

variable {ε : Type}

theorem closeShard_cons_ne (a : String) (s : Shard ε)
    (r : List (String × Shard ε)) (k : String) (h : a ≠ k) :
    closeShard ((a, s) :: r) k =
      ((a, s) :: (closeShard r k).1, (closeShard r k).2) := by
  cases hg : smGet r k with
  | none => simp [closeShard, smGet, h, hg]
  | some sh =>
    cases hc : Shard.close sh with
    | some e => simp [closeShard, smGet, smDel, h, hg, hc]
    | none => simp [closeShard, smGet, smDel, h, hg, hc]

theorem closeFold_cons_not_mem (k : String) (s : Shard ε)
    (r : List (String × Shard ε)) (ks : List String) (h : k ∉ ks) :
    closeFold ((k, s) :: r) ks =
      ((k, s) :: (closeFold r ks).1, (closeFold r ks).2) := by
  induction ks generalizing r with
  | nil => rfl
  | cons k' ks ih =>
    have hne : k ≠ k' := fun he => h (he ▸ List.mem_cons_self k' ks)
    have htl : k ∉ ks := fun he => h (List.mem_cons_of_mem _ he)
    simp [closeFold, closeShard_cons_ne k s r k' hne, ih _ htl]

/-- Full characterization of `CloseAll` on a well-formed registry:
every entry's close is attempted in order, the returned slice is
exactly the close errors, and exactly the entries whose close
succeeded are removed — entries whose close failed stay registered. -/
theorem closeFold_keys_spec (reg : List (String × Shard ε))
    (h : (smKeys reg).Nodup) :
    closeFold reg (smKeys reg) =
      (reg.filter (fun p => (Shard.close p.2).isSome),
       reg.filterMap (fun p => Shard.close p.2)) := by
  induction reg with
  | nil => rfl
  | cons p reg ih =>
    cases p with
    | mk k s =>
      have h' : (k :: smKeys reg).Nodup := h
      have hk : k ∉ smKeys reg := (List.nodup_cons.mp h').1
      have hnd : (smKeys reg).Nodup := (List.nodup_cons.mp h').2
      have hkeys : smKeys ((k, s) :: reg) = k :: smKeys reg := rfl
      rw [hkeys]
      cases hc : Shard.close s with
      | some e =>
        have h1 : closeShard ((k, s) :: reg) k = ((k, s) :: reg, some e) := by
          simp [closeShard, smGet, hc]
        simp [closeFold, h1, closeFold_cons_not_mem k s reg _ hk, ih hnd, hc]
      | none =>
        have h1 : closeShard ((k, s) :: reg) k = (reg, none) := by
          simp [closeShard, smGet, smDel, hc, smDel_eq_of_not_mem reg k hk]
        simp [closeFold, h1, ih hnd, hc]

end Registry

/-- Claim C4: registering a shard whose key already exists closes the
prior entry's connection first; if that close fails the registration
returns the close error and the new entry is not installed, the old
entry staying in place; if it succeeds the new entry replaces the old
one. Proved for both cited implementations: part_004's lazy-connect
`registerShard` and shards.go's eager-connect `registerShard` (whose
install additionally requires the new connection to open). -/
theorem register_replace_or_fail {ε : Type}
    (reg : List (String × Registry.Shard ε)) (shard old : Registry.Shard ε)
    (greg : List (String × ShardsGo.Shard ε)) (gshard gold : ShardsGo.Shard ε)
    (h : smGet reg shard.key = some old)
    (hg : smGet greg gshard.key = some gold) :
    (∀ e, Registry.Shard.close old = some e →
      Registry.registerShard reg shard = (reg, some e) ∧
      smGet (Registry.registerShard reg shard).1 shard.key = some old) ∧
    (Registry.Shard.close old = none →
      Registry.registerShard reg shard = (smSet reg shard.key shard, none)) ∧
    (∀ e, gold.closeRes = some e →
      ShardsGo.registerShard greg gshard = (greg, some e) ∧
      smGet (ShardsGo.registerShard greg gshard).1 gshard.key = some gold) ∧
    (gold.closeRes = none → gshard.openRes = none →
      ShardsGo.registerShard greg gshard =
        (smSet greg gshard.key { gshard with dbSet := true }, none)) := by
  refine ⟨?_, ?_, ?_, ?_⟩
  · intro e hc
    constructor
    · simp [Registry.registerShard, h, hc]
    · simp [Registry.registerShard, h, hc]
  · intro hc
    simp [Registry.registerShard, h, hc]
  · intro e hc
    constructor
    · simp [ShardsGo.registerShard, hg, hc]
    · simp [ShardsGo.registerShard, hg, hc]
  · intro hc ho
    simp [ShardsGo.registerShard, ShardsGo.connectToDatabase, hg, hc, ho]

/-- Witness for C4: re-registering key "a" over an entry whose close
fails with error 7 returns that error and leaves the registry
untouched, in both implementations. -/
theorem register_replace_or_fail_witness :
    Registry.registerShard regTwo shardFreshA = (regTwo, some 7) ∧
    ShardsGo.registerShard gRegOne gShardFreshA = (gRegOne, some 7) := by
  have h := register_replace_or_fail regTwo shardFreshA shardCloseFail
    gRegOne gShardFreshA gShardCloseFail (by decide) (by decide)
  exact ⟨(h.1 7 (by decide)).1, (h.2.2.1 7 (by decide)).1⟩

/-- Claim C5 (counterexample): on a registry where entry "a" fails to
close (error 7) and entry "b" closes fine, `CloseAll` attempts both
and returns exactly the one error — but the failed entry "a" is NOT
removed from the registry, contradicting the claim that every entry is
removed regardless of close outcome. -/
theorem closeAll_keeps_failed_entry :
    Registry.CloseAll regTwo = ([("a", shardCloseFail)], [7]) ∧
    (Registry.CloseAll regTwo).1 ≠ [] := by decide

/-- Claim C5 (amended): `CloseAll` attempts to close every registered
entry in order — a failure closing one does not stop the others — and
returns exactly the close errors that occurred; it removes exactly the
entries whose close succeeded, while entries whose close failed remain
registered. -/
theorem closeAll_best_effort {ε : Type} (reg : List (String × Registry.Shard ε))
    (h : (smKeys reg).Nodup) :
    (Registry.CloseAll reg).2 =
      reg.filterMap (fun p => Registry.Shard.close p.2) ∧
    (Registry.CloseAll reg).1 =
      reg.filter (fun p => (Registry.Shard.close p.2).isSome) := by
  have hs := Registry.closeFold_keys_spec reg h
  exact ⟨by rw [Registry.CloseAll, hs], by rw [Registry.CloseAll, hs]⟩

/-- Witness for C5 (amended): on the concrete two-entry registry the
error slice is `[7]` and only the failed entry survives. -/
theorem closeAll_best_effort_witness :
    (Registry.CloseAll regTwo).2 = [7] ∧
    (Registry.CloseAll regTwo).1 = [("a", shardCloseFail)] := by
  have h := closeAll_best_effort regTwo (by decide)
  exact ⟨h.1.trans (by decide), h.2.trans (by decide)⟩

/-- Claim C6 (counterexample): `DB` returns the same nil signal for an
unregistered key ("a") and for a registered key whose connection
attempt fails ("b", `sql.Open` error 3): the two failure cases are
not distinguishable from the return value. -/
theorem db_signals_indistinguishable :
    (Registry.DB regOpenFail "a").2 = none ∧
    (Registry.DB regOpenFail "b").2 = none ∧
    (Registry.DB regOpenFail "a").2 = (Registry.DB regOpenFail "b").2 := by
  decide

/-- Claim C6 (amended): `DB` yields nil when the key is unregistered
and the very same nil when the key is registered but establishing its
connection fails; the caller cannot tell the two cases apart from the
returned value. -/
theorem db_nil_both_failure_modes {ε : Type}
    (reg : List (String × Registry.Shard ε)) (key : String) :
    (smGet reg key = none → (Registry.DB reg key).2 = none) ∧
    (∀ s, smGet reg key = some s → (Registry.Shard.connect s).2.isSome →
      (Registry.DB reg key).2 = none) := by
  constructor
  · intro h
    simp [Registry.DB, h]
  · intro s hs hc
    obtain ⟨e, he⟩ := Option.isSome_iff_exists.mp hc
    simp [Registry.DB, hs, he]

/-- Witness for C6 (amended): evaluated on the concrete registry with
only the failing-to-open "b" entry. -/
theorem db_nil_both_failure_modes_witness :
    (Registry.DB regOpenFail "a").2 = none ∧
    (Registry.DB regOpenFail "b").2 = none := by
  have h1 := (db_nil_both_failure_modes regOpenFail "a").1 (by decide)
  have h2 := (db_nil_both_failure_modes regOpenFail "b").2 shardOpenFail
    (by decide) (by decide)
  exact ⟨h1, h2⟩

theorem goJoin_none_right (a : Option QErr) : goJoin a none = a := by
  cases a <;> rfl

namespace Querier

theorem doSeqAux_collect (shards : List ShardB) (acc : Option QErr) :
    doSeqAux false acc shards =
      (shards.map (fun s => (s.key, doInShard s)),
       shards.foldl
         (fun a s => goJoin a ((doInShard s).err.map (QErr.wrapS s.key)))
         acc) := by
  induction shards generalizing acc with
  | nil => rfl
  | cons s rest ih =>
    cases he : (doInShard s).err with
    | none => simp [doSeqAux, he, ih, goJoin_none_right]
    | some e => simp [doSeqAux, he, ih]

theorem foldl_join_none (shards : List ShardB) (acc : Option QErr)
    (h : ∀ s ∈ shards, (doInShard s).err = none) :
    shards.foldl
      (fun a s => goJoin a ((doInShard s).err.map (QErr.wrapS s.key)))
      acc = acc := by
  induction shards generalizing acc with
  | nil => rfl
  | cons s rest ih =>
    have hs := h s (List.mem_cons_self s rest)
    simp only [List.foldl_cons, hs, Option.map_none', goJoin_none_right]
    exact ih acc (fun x hx => h x (List.mem_cons_of_mem _ hx))

end Querier

/-- Claim C7 (counterexample): in querier.go's `doInShard`, a unit of
work that returns success with commit flag `false` leaves the
transaction open — `Rollback` is never invoked — while the claim says
the transaction is rolled back. (No error is contributed, as claimed.) -/
theorem doInShard_no_rollback_on_false_commit :
    Querier.doInShard qsNoCommit = ⟨true, true, false, false, none⟩ ∧
    (Querier.doInShard qsNoCommit).rolledBack = false := by decide

/-- Claim C7 (amended): when the unit of work returns success with
commit flag `false`, querier.go's `doInShard` contributes no error and
does not commit, but it also does not roll the transaction back; the
part_002 variant of `doInShard` does roll it back, contributing no
error when the rollback returns nil or `sql.ErrTxDone` (and returning
the rollback error otherwise). -/
theorem doInShard_false_commit_behavior (s : Querier.ShardB)
    (h1 : s.openTx = none) (h2 : s.doErr = none) (h3 : s.doCommit = false) :
    Querier.doInShard s = ⟨true, true, false, false, none⟩ ∧
    (QuerierV2.doInShard s).rolledBack = true ∧
    (QuerierV2.doInShard s).err =
      (if isErrTxDone s.rollbackRes then none else s.rollbackRes) ∧
    (s.rollbackRes = none → (QuerierV2.doInShard s).err = none) := by
  refine ⟨?_, ?_, ?_, ?_⟩
  · simp [Querier.doInShard, h1, h2, h3]
  · simp [QuerierV2.doInShard, h1, h2, h3]
  · simp [QuerierV2.doInShard, h1, h2, h3]
  · intro hr
    simp [QuerierV2.doInShard, h1, h2, h3, hr, isErrTxDone]

/-- Witness for C7 (amended): the concrete commit-flag-`false` shard
behaviour evaluated in both implementations. -/
theorem doInShard_false_commit_behavior_witness :
    Querier.doInShard qsNoCommit = ⟨true, true, false, false, none⟩ ∧
    (QuerierV2.doInShard qsNoCommit).rolledBack = true ∧
    (QuerierV2.doInShard qsNoCommit).err = none := by
  have h := doInShard_false_commit_behavior qsNoCommit rfl rfl rfl
  exact ⟨h.1, h.2.1, h.2.2.2 rfl⟩

/-- Claim C8: with fail-fast enabled, if shard `b` is the first of the
selection to produce an error, the run stops at `b`: the trace covers
exactly the prefix up to and including `b` (shards after `b` are never
attempted) and the call returns `b`'s error alone, unwrapped. -/
theorem do_failfast_short_circuit (pre : List Querier.ShardB)
    (b : Querier.ShardB) (post : List Querier.ShardB) (eb : QErr)
    (hpre : ∀ s ∈ pre, (Querier.doInShard s).err = none)
    (hb : (Querier.doInShard b).err = some eb) :
    Querier.Do true (pre ++ b :: post) =
      (pre.map (fun s => (s.key, Querier.doInShard s)) ++
        [(b.key, Querier.doInShard b)], some eb) := by
  have hne : (pre ++ b :: post).isEmpty = false := by
    cases pre <;> simp [List.isEmpty]
  rw [Querier.Do, hne]
  simp only [Bool.false_eq_true, if_false]
  rw [Querier.doSequential]
  revert hpre
  induction pre with
  | nil =>
    intro _
    simp [Querier.doSeqAux, hb]
  | cons s pre ih =>
    intro hpre
    have hs := hpre s (List.mem_cons_self s pre)
    have ih' := ih (by cases pre <;> simp [List.isEmpty])
      (fun x hx => hpre x (List.mem_cons_of_mem _ hx))
    simp [Querier.doSeqAux, hs, ih']

/-- Witness for C8: on `[a-ok, b-fails, c-ok]` with fail-fast, only
`a` and `b` are attempted and the call returns `b`'s raw error 9. -/
theorem do_failfast_short_circuit_witness :
    Querier.Do true [qsOk "a", qsErr "b", qsOk "c"] =
      ([("a", Querier.doInShard (qsOk "a")),
        ("b", Querier.doInShard (qsErr "b"))], some (QErr.base 9)) := by
  have h := do_failfast_short_circuit [qsOk "a"] (qsErr "b") [qsOk "c"]
    (QErr.base 9) (by decide) (by decide)
  exact h.trans (by decide)

/-- Claim C9: with fail-fast disabled, every selected shard is
attempted in order regardless of earlier failures, each per-shard
error is wrapped with its shard key and all are joined into one
composite error; the call returns nil when no shard errs, and an empty
selection returns nil. -/
theorem do_collect_all_wrapped (shards : List Querier.ShardB) :
    Querier.Do false shards =
      (shards.map (fun s => (s.key, Querier.doInShard s)),
       shards.foldl
         (fun a s => goJoin a ((Querier.doInShard s).err.map (QErr.wrapS s.key)))
         none) ∧
    ((∀ s ∈ shards, (Querier.doInShard s).err = none) →
      (Querier.Do false shards).2 = none) ∧
    Querier.Do false [] = ([], none) := by
  have hmain : Querier.Do false shards =
      (shards.map (fun s => (s.key, Querier.doInShard s)),
       shards.foldl
         (fun a s => goJoin a ((Querier.doInShard s).err.map (QErr.wrapS s.key)))
         none) := by
    cases shards with
    | nil => rfl
    | cons s rest =>
      rw [Querier.Do]
      simp only [List.isEmpty_cons, Bool.false_eq_true, if_false]
      exact Querier.doSeqAux_collect (s :: rest) none
  refine ⟨hmain, ?_, rfl⟩
  intro h
  rw [hmain]
  exact Querier.foldl_join_none shards none h

/-- Witness for C9: with fail-fast disabled, on `[a-ok, b-fails,
c-ok]` the result is `b`'s error wrapped with key "b", and on
`[a-ok, c-ok]` the result is nil. -/
theorem do_collect_all_wrapped_witness :
    (Querier.Do false [qsOk "a", qsErr "b", qsOk "c"]).2 =
      some (QErr.wrapS "b" (QErr.base 9)) ∧
    (Querier.Do false [qsOk "a", qsOk "c"]).2 = none := by
  have h := do_collect_all_wrapped [qsOk "a", qsErr "b", qsOk "c"]
  have h2 := do_collect_all_wrapped [qsOk "a", qsOk "c"]
  exact ⟨by rw [h.1]; decide, h2.2.1 (by decide)⟩
